import Mathlib

/-!
Shallow embedding of `src/stfinv/utils/plotting.py` (module `stfinv.utils.plotting`).

Numeric samples, metric values and offsets are modelled as rationals (`ℚ`).
Python dictionaries keyed by station code are modelled as association lists
`List (String × ℚ)`; a dictionary lookup `d[code]` either returns the value or
raises the builtin `KeyError` carrying the key.  NumPy float results that can
be NaN are modelled by `PyResult`, which distinguishes an ordinary value, the
NaN float, and a raised exception.
-/

namespace Stfinv

/-- Line styles used in `plot_waveforms`: `'-'` (solid) or `'dotted'`. -/
inductive LineStyle where
  | solid
  | dotted
  deriving DecidableEq, Repr

/-- Exceptions that the lookups in `plot_waveforms` can raise.  The code only
ever raises the Python builtins `KeyError` (dictionary lookup, carries the
key) and `IndexError` (`st_synth.select(...)[0]` on an empty selection).
`missingStationDataError` is included so that the spec's claimed error class
is expressible; no function of the embedding produces it. -/
inductive PyExn where
  | keyError (key : String)
  | indexError
  | missingStationDataError (code : String)
  deriving DecidableEq, Repr

/-- Result of a NumPy floating-point computation: a value, the float NaN
(which `np.mean` of an empty array returns, with only a RuntimeWarning), or a
raised exception (named by its class). -/
inductive PyResult where
  | ok (q : ℚ)
  | nan
  | raised (e : String)
  deriving DecidableEq, Repr

/-- The subset of `tr.stats` that `plotting.py` reads. -/
structure Stats where
  station : String
  location : String
  delta : ℚ
  azi : ℚ
  stla : ℚ
  stlo : ℚ
  deriving DecidableEq, Repr

/-- An obspy trace: stats plus the sample array `tr.data`. -/
structure Trace where
  stats : Stats
  data : List ℚ
  deriving DecidableEq, Repr

/-- `'%s.%s' % (tr.stats.station, tr.stats.location)` — the station code used
as the key of every metrics dictionary. -/
def Trace.code (tr : Trace) : String :=
  tr.stats.station ++ "." ++ tr.stats.location

/-- `tr.stats.npts`: the number of samples of the trace. -/
def Trace.npts (tr : Trace) : ℕ := tr.data.length

/-- Metric mappings (`CC`, `dA`, `dT`, `arr_times`). -/
abbrev Dict := List (String × ℚ)

/-- Python dictionary lookup `d[k]`: the value when present, otherwise a
raised `KeyError` carrying the key. -/
def dictGet (d : Dict) (k : String) : Except PyExn ℚ :=
  match d.find? (fun p => p.1 == k) with
  | some p => Except.ok p.2
  | none => Except.error (PyExn.keyError k)

/-- `st_synth.select(station=...)[0]`: the first trace whose station name
matches, an `IndexError` when the selection is empty.  (`select` filters by
station name only; `[0]` on an empty list raises `IndexError`, which carries
no station code.) -/
def selectStation (st : List Trace) (station : String) : Except PyExn Trace :=
  match st.find? (fun tr => tr.stats.station == station) with
  | some tr => Except.ok tr
  | none => Except.error PyExn.indexError

/-- `max(np.abs(tr.data))` (as used for `normfac`); `0` on the empty list. -/
def maxAbs (xs : List ℚ) : ℚ :=
  xs.foldl (fun m x => max m |x|) 0

/-- `np.convolve(a, b, mode='full')`: output index `k` holds
`Σ_{i≤k} a[i]·b[k-i]` (out-of-range entries are zero); the output has
`len(a) + len(b) - 1` entries. -/
def convFull (a b : List ℚ) : List ℚ :=
  (List.range (a.length + b.length - 1)).map fun k =>
    (List.range (k + 1)).foldl (fun s i => s + a.getD i 0 * b.getD (k - i) 0) 0

/-- Lines 64–67: `ls = '-' if CC[code] > CClim else 'dotted'`. -/
def lineStyle (cc CClim : ℚ) : LineStyle :=
  if CClim < cc then LineStyle.solid else LineStyle.dotted

/-- Line 48: `nrows = int(np.sqrt(nplots)) + 1`. -/
def nrows (nplots : ℕ) : ℕ := Nat.sqrt nplots + 1

/-- Line 49: `ncols = nplots / nrows + 1` — Python 3 true division, so the
value is an exact rational, not an integer. -/
def ncols (nplots : ℕ) : ℚ := (nplots : ℚ) / (nrows nplots : ℚ) + 1

/-- Line 55: `irow = np.mod(iplot, nrows)`. -/
def irow (iplot nr : ℕ) : ℕ := iplot % nr

/-- Line 56: `icol = np.int(iplot / nrows)` — truncation of the nonnegative
quotient, i.e. floor division. -/
def icol (iplot nr : ℕ) : ℕ := iplot / nr

/-- Line 60: `yoffset = irow * 1.5`. -/
def yoffsetOf (iplot nr : ℕ) : ℚ := (irow iplot nr : ℚ) * (3 / 2)

/-- Line 61: `xoffset = icol`. -/
def xoffsetOf (iplot nr : ℕ) : ℚ := (icol iplot nr : ℚ)

/-- `_dict_mean` (lines 275–282): fill an array with the dictionary's values
and return `np.mean` of it.  For a non-empty dictionary this is the sum of
the values divided by their count; for an empty dictionary `np.mean` of the
empty array returns NaN (with a RuntimeWarning) — it raises nothing. -/
def dict_mean (d : Dict) : PyResult :=
  if d.length = 0 then PyResult.nan
  else PyResult.ok ((d.map Prod.snd).sum / (d.length : ℚ))

/-- The per-station values computed by one iteration of the plotting loop of
`plot_waveforms` (lines 53–109): line style, normalization factor, the three
plotted curves (before the cell offsets are added), and the per-station
metric values fetched for the annotation text and the arrival-time marker. -/
structure StationPlot where
  ls : LineStyle
  normfac : ℚ
  dataCurve : List ℚ
  greensCurve : List ℚ
  synthCurve : List ℚ
  cc : ℚ
  dA : ℚ
  dT : ℚ
  arrTime : ℚ
  deriving DecidableEq, Repr

/-- One iteration of the plotting loop (lines 53–109), in source order:
`normfac = max(abs(tr.data))` (line 58); the `CC[code]` lookup deciding the
line style (line 64); `st_synth.select(station=...)[0]` (line 79); the three
curves divided by `normfac` (lines 70, 79, 88–89), the synthetic being
`np.convolve(greens, stf, 'full')[0:tr.stats.npts]`; then the `dA[code]`,
`dT[code]` (lines 100–101) and `arr_times[code]` (line 105) lookups.  Each
failing lookup raises at the point the source reaches it. -/
def plotStation (tr : Trace) (st_synth : List Trace) (CC dA dT arr_times : Dict)
    (CClim : ℚ) (stf : List ℚ) : Except PyExn StationPlot :=
  let normfac := maxAbs tr.data
  match dictGet CC tr.code with
  | Except.error e => Except.error e
  | Except.ok cc =>
    match selectStation st_synth tr.stats.station with
    | Except.error e => Except.error e
    | Except.ok g =>
      match dictGet dA tr.code with
      | Except.error e => Except.error e
      | Except.ok da =>
        match dictGet dT tr.code with
        | Except.error e => Except.error e
        | Except.ok dt =>
          match dictGet arr_times tr.code with
          | Except.error e => Except.error e
          | Except.ok arrT =>
            Except.ok
              { ls := lineStyle cc CClim
                normfac := normfac
                dataCurve := tr.data.map fun x => x / normfac
                greensCurve := g.data.map fun x => x / normfac
                synthCurve :=
                  ((convFull g.data stf).take tr.npts).map fun x => x / normfac
                cc := cc
                dA := da
                dT := dt
                arrTime := arrT }

/-- Line 123: `xoffset = _dict_mean(dT) * tr.stats.delta` — the x-shift of
the STF inset; `delta` is the sample interval of the trace left in `tr` after
the plotting loop (the last station in azimuth order).  NaN propagates
through the multiplication. -/
def stfXOffset (dT : Dict) (delta : ℚ) : PyResult :=
  match dict_mean dT with
  | PyResult.ok m => PyResult.ok (m * delta)
  | PyResult.nan => PyResult.nan
  | PyResult.raised e => PyResult.raised e

/-- The marker list `['o', 'd']` passed to `add_ortho` (line 174; also its
default, line 183): group-A marker first, group-B marker second. -/
def orthoMarkers : List String := ["o", "d"]

/-- The grouping loop of `add_ortho` (lines 222–230): a station point
`(lon, lat, color)` is appended to the mark-1 lists when `color > CClim`,
otherwise to the mark-2 lists, scanning the input in order. -/
def splitGroups (pts : List (ℚ × ℚ × ℚ)) (CClim : ℚ) :
    List (ℚ × ℚ × ℚ) × List (ℚ × ℚ × ℚ) :=
  match pts with
  | [] => ([], [])
  | p :: rest =>
    let r := splitGroups rest CClim
    if CClim < p.2.2 then (p :: r.1, r.2) else (r.1, p :: r.2)

/-- Stable insertion of a trace into a list sorted by ascending `azi`. -/
def insertAzi (tr : Trace) : List Trace → List Trace
  | [] => [tr]
  | x :: xs =>
    if tr.stats.azi ≤ x.stats.azi then tr :: x :: xs else x :: insertAzi tr xs

/-- `st_data_plot.sort(keys=['azi'])` (line 52): stable ascending sort of the
stream's traces by azimuth. -/
def sortByAzi : List Trace → List Trace
  | [] => []
  | x :: xs => insertAzi x (sortByAzi xs)

/-- The cell assigned to one station by the plotting loop: its row/column
indices and the cell-origin offsets added to its curves. -/
structure CellPlacement where
  tr : Trace
  row : ℕ
  col : ℕ
  xoffset : ℚ
  yoffset : ℚ
  deriving DecidableEq, Repr

/-- The grid placement of `plot_waveforms` (lines 47–61): `nplots` is the
station count of the input stream, the stream is sorted by azimuth, and the
station at sorted index `iplot` gets `irow = iplot % nrows`,
`icol = iplot // nrows`, `xoffset = icol`, `yoffset = irow * 1.5`. -/
def stationLayout (st_data : List Trace) : List CellPlacement :=
  (sortByAzi st_data).enum.map fun p =>
    { tr := p.2
      row := irow p.1 (nrows st_data.length)
      col := icol p.1 (nrows st_data.length)
      xoffset := xoffsetOf p.1 (nrows st_data.length)
      yoffset := yoffsetOf p.1 (nrows st_data.length) }

/-- Identity of a Python stream object (for the aliasing model). -/
abbrev StreamId := ℕ

/-- A heap of stream objects: newest binding first; `hlookup` reads the
newest binding of an id, `hset` writes a new binding (in-place mutation of
the object named by the id). -/
abbrev Heap := List (StreamId × List Trace)

/-- Read the current traces of a stream object. -/
def hlookup (h : Heap) (i : StreamId) : Option (List Trace) :=
  (h.find? (fun p => p.1 == i)).map Prod.snd

/-- Mutate the stream object `i` to hold `v`. -/
def hset (h : Heap) (i : StreamId) (v : List Trace) : Heap := (i, v) :: h

/-- An id not yet bound in the heap (for `st_data.copy()`). -/
def freshId (h : Heap) : StreamId := (h.map Prod.fst).foldr max 0 + 1

/-- Lines 51–52 of `plot_waveforms` as operations on the stream heap:
`st_data_plot = st_data.copy()` allocates a fresh stream object holding the
caller's traces, and `st_data_plot.sort(keys=['azi'])` sorts that copy in
place.  The caller's object `stId` is read but never written.  Returns the
heap after the two statements and the traces the loop then iterates over. -/
def plotWaveformsStreams (h : Heap) (stId : StreamId) :
    Heap × Option (List Trace) :=
  match hlookup h stId with
  | none => (h, none)
  | some st =>
    let copyId := freshId h
    let h1 := hset h copyId st
    let h2 := hset h1 copyId (sortByAzi st)
    (h2, hlookup h2 copyId)

/-! Concrete fixtures used by witnesses and counterexamples. -/

/-- Fixture stats for station `AAA.00`. -/
def statsA : Stats :=
  { station := "AAA", location := "00", delta := 1 / 10, azi := 10,
    stla := 1, stlo := 2 }

/-- Fixture data trace (3 samples, peak amplitude 2). -/
def trA : Trace := { stats := statsA, data := [1, -2, 1] }

/-- Fixture Green's-function trace for station `AAA` (2 samples). -/
def gA : Trace := { stats := statsA, data := [1, 0] }

/-- Fixture second station (`BBB.00`, smaller azimuth than `AAA.00`). -/
def trB : Trace :=
  { stats := { station := "BBB", location := "00", delta := 1 / 10, azi := 5,
               stla := 3, stlo := 4 }
    data := [2, 0] }

/-- Fixture source time function. -/
def stfEx : List ℚ := [1, 1]

/-- The cell placement of fixture station `AAA.00` at sorted index 1 of the
two-station stream `[trA, trB]` (rows = nrows 2 = 2). -/
def cEx : CellPlacement :=
  { tr := trA, row := 1, col := 0, xoffset := 0, yoffset := 3 / 2 }

/-- Fixture `CC` mapping. -/
def ccEx : Dict := [("AAA.00", 9 / 10)]

/-- Fixture `dA` mapping. -/
def dAEx : Dict := [("AAA.00", 2)]

/-- Fixture `dT` mapping. -/
def dTEx : Dict := [("AAA.00", 3)]

/-- Fixture `arr_times` mapping. -/
def arrEx : Dict := [("AAA.00", 4)]

/-- The station-plot record produced by the fixtures
(`normfac = 2`, `conv([1,0],[1,1],full) = [1,1,0]`). -/
def pEx : StationPlot :=
  { ls := LineStyle.solid
    normfac := 2
    dataCurve := [1 / 2, -1, 1 / 2]
    greensCurve := [1 / 2, 0]
    synthCurve := [1 / 2, 1 / 2, 0]
    cc := 9 / 10
    dA := 2
    dT := 3
    arrTime := 4 }

end Stfinv

namespace Stfinv

/-- Helper: compute `Nat.sqrt` from its characterisation. -/
lemma sqrt_eq_of (n r : ℕ) (h1 : r * r ≤ n) (h2 : n < (r + 1) * (r + 1)) :
    Nat.sqrt n = r :=
  (Nat.eq_sqrt.mpr ⟨h1, h2⟩).symm

/-- Helper: `nrows 4 = 3`. -/
lemma nrows_four : nrows 4 = 3 := by
  simp only [nrows, sqrt_eq_of 4 2 (by norm_num) (by norm_num)]

/-- C1 counterexample: for `n = 4` the code's column count is
`4 / 3 + 1 = 7/3`, which is neither an integer nor the claimed
`ceil(4/3) + 1 = 3` (the row count is `3` as claimed). -/
theorem ncols_four_ne_three :
    nrows 4 = 3 ∧ ncols 4 = 7 / 3 ∧ ncols 4 ≠ 3 ∧
      ncols 4 ≠ (⌈(4 : ℚ) / (nrows 4 : ℚ)⌉ : ℚ) + 1 := by
  have h4 : nrows 4 = 3 := nrows_four
  have hc : (⌈(4 : ℚ) / (nrows 4 : ℚ)⌉ : ℤ) = 2 := by
    rw [h4, Int.ceil_eq_iff]
    norm_num
  refine ⟨h4, ?_, ?_, ?_⟩
  · simp only [ncols, h4]
    norm_num
  · simp only [ncols, h4]
    norm_num
  · rw [hc]
    simp only [ncols, h4]
    norm_num

/-- C1 (amended): `nrows n = ⌊√n⌋ + 1` (characterised by
`(nrows n - 1)² ≤ n < (nrows n)²`), while `ncols n` is the exact rational
`n / nrows n + 1` computed by true division; in particular for `n = 4`,
`nrows = 3` and `ncols = 7/3`. -/
theorem grid_sizing (n : ℕ) :
    (nrows n - 1) * (nrows n - 1) ≤ n ∧ n < nrows n * nrows n ∧
      ncols n = (n : ℚ) / ((nrows n : ℕ) : ℚ) + 1 ∧
      nrows 4 = 3 ∧ ncols 4 = 7 / 3 := by
  refine ⟨?_, ?_, rfl, nrows_four, ?_⟩
  · have h := Nat.sqrt_le' n
    simpa [nrows, pow_two] using h
  · have h := Nat.lt_succ_sqrt' n
    simpa [nrows, pow_two] using h
  · have h4 : nrows 4 = 3 := nrows_four
    simp only [ncols, h4]
    norm_num

/-- C4 counterexample: on the empty mapping `_dict_mean` returns the NaN
float (with only a RuntimeWarning); it does not raise `EmptyInputError`. -/
theorem dict_mean_empty_is_nan :
    dict_mean [] = PyResult.nan ∧
      PyResult.nan ≠ PyResult.raised "EmptyInputError" := by
  exact ⟨rfl, by decide⟩

/-- C4 (amended): on a non-empty mapping `_dict_mean` returns the unweighted
arithmetic mean of the values (so `mean({"a":1,"b":3}) = 2`); on the empty
mapping it returns NaN rather than raising. -/
theorem dict_mean_spec (d : Dict) (hd : d ≠ []) :
    dict_mean d = PyResult.ok ((d.map Prod.snd).sum / (d.length : ℚ)) ∧
      dict_mean [] = PyResult.nan := by
  constructor
  · have hlen : d.length ≠ 0 := fun h => hd (List.length_eq_zero.mp h)
    simp [dict_mean, hlen]
  · rfl

/-- C4 witness: `mean({"a":1.0, "b":3.0}) = 2.0`, via `dict_mean_spec`. -/
theorem dict_mean_spec_witness :
    dict_mean [("a", (1 : ℚ)), ("b", 3)] = PyResult.ok 2 := by
  have h := dict_mean_spec [("a", (1 : ℚ)), ("b", 3)] (by decide)
  have h1 := h.1
  norm_num at h1
  exact h1

/-- C3 counterexample: with `dT = {"a": 2}` and `delta = 1/2`, the STF inset
x-shift is `mean(dT) * delta = 1`, not the bare mean `2`. -/
theorem stf_xoffset_scaled_by_delta :
    stfXOffset [("a", (2 : ℚ))] (1 / 2) = PyResult.ok 1 ∧
      dict_mean [("a", (2 : ℚ))] = PyResult.ok 2 ∧
      stfXOffset [("a", (2 : ℚ))] (1 / 2) ≠ dict_mean [("a", (2 : ℚ))] := by
  refine ⟨?_, ?_, ?_⟩ <;> norm_num [stfXOffset, dict_mean]

/-- C3 (amended): for a non-empty `dT`, the STF inset's x-axis is shifted by
the arithmetic mean of the `dT` values multiplied by the trace's sample
interval `delta` (the `delta` of the last trace of the plotting loop). -/
theorem stf_xoffset_eq_mean_mul_delta (dT : Dict) (delta : ℚ) (hd : dT ≠ []) :
    stfXOffset dT delta =
      PyResult.ok (((dT.map Prod.snd).sum / (dT.length : ℚ)) * delta) := by
  have hlen : dT.length ≠ 0 := fun h => hd (List.length_eq_zero.mp h)
  simp [stfXOffset, dict_mean, hlen]

/-- C3 witness: `stf_xoffset_eq_mean_mul_delta` at `dT = {"a": 2}`,
`delta = 1/2`. -/
theorem stf_xoffset_eq_mean_mul_delta_witness :
    stfXOffset [("a", (2 : ℚ))] (1 / 2) =
      PyResult.ok (((([("a", (2 : ℚ))].map Prod.snd).sum / 1)) * (1 / 2)) := by
  have h := stf_xoffset_eq_mean_mul_delta [("a", (2 : ℚ))] (1 / 2) (by decide)
  simpa using h

/-- C7: the line style is `if CC[code] > CClim then solid else dotted` — a
pure function of the two scalars; it is solid iff `CC[code] > CClim`, and at
exact equality (`cc = CClim`) it is dotted. -/
theorem lineStyle_solid_iff (cc CClim : ℚ) :
    (lineStyle cc CClim = LineStyle.solid ↔ CClim < cc) ∧
      lineStyle CClim CClim = LineStyle.dotted := by
  constructor
  · constructor
    · intro h
      by_contra hlt
      simp [lineStyle, hlt] at h
    · intro h
      simp [lineStyle, h]
  · simp [lineStyle]

end Stfinv

namespace Stfinv

/-- Helper: inversion of a successful `plotStation` run — every lookup
succeeded and the record's fields are exactly the source expressions. -/
lemma plotStation_ok_inv (tr : Trace) (st_synth : List Trace)
    (CC dA dT arr_times : Dict) (CClim : ℚ) (stf : List ℚ) (p : StationPlot)
    (hp : plotStation tr st_synth CC dA dT arr_times CClim stf = Except.ok p) :
    ∃ cc g da dt arrT,
      dictGet CC tr.code = Except.ok cc ∧
      selectStation st_synth tr.stats.station = Except.ok g ∧
      dictGet dA tr.code = Except.ok da ∧
      dictGet dT tr.code = Except.ok dt ∧
      dictGet arr_times tr.code = Except.ok arrT ∧
      p = { ls := lineStyle cc CClim
            normfac := maxAbs tr.data
            dataCurve := tr.data.map fun x => x / maxAbs tr.data
            greensCurve := g.data.map fun x => x / maxAbs tr.data
            synthCurve := ((convFull g.data stf).take tr.npts).map
              fun x => x / maxAbs tr.data
            cc := cc
            dA := da
            dT := dt
            arrTime := arrT } := by
  simp only [plotStation] at hp
  split at hp
  next e h1 => exact absurd hp (by simp)
  next cc h1 =>
    split at hp
    next e h2 => exact absurd hp (by simp)
    next g h2 =>
      split at hp
      next e h3 => exact absurd hp (by simp)
      next da h3 =>
        split at hp
        next e h4 => exact absurd hp (by simp)
        next dt h4 =>
          split at hp
          next e h5 => exact absurd hp (by simp)
          next arrT h5 =>
            refine ⟨cc, g, da, dt, arrT, h1, h2, h3, h4, h5, ?_⟩
            cases hp
            rfl

/-- Helper: dividing every element by a fixed nonnegative `f` divides the
running max-abs fold by `f`. -/
lemma foldl_maxAbs_div (f : ℚ) (hf : 0 ≤ f) :
    ∀ (xs : List ℚ) (a : ℚ),
      (xs.map fun x => x / f).foldl (fun m x => max m |x|) (a / f)
        = xs.foldl (fun m x => max m |x|) a / f := by
  intro xs
  induction xs with
  | nil => intro a; simp
  | cons x xs ih =>
    intro a
    have hstep : max (a / f) |x / f| = max a |x| / f := by
      rw [abs_div, abs_of_nonneg hf, max_div_div_right hf]
    rw [List.map_cons, List.foldl_cons, List.foldl_cons, hstep, ih]

/-- Helper: `maxAbs` of a list scaled by `1/f` is `maxAbs / f`. -/
lemma maxAbs_map_div (xs : List ℚ) (f : ℚ) (hf : 0 ≤ f) :
    maxAbs (xs.map fun x => x / f) = maxAbs xs / f := by
  have h := foldl_maxAbs_div f hf xs 0
  rw [zero_div] at h
  exact h

/-- Helper: `convFull` has `len a + len b - 1` output samples. -/
lemma convFull_length (a b : List ℚ) :
    (convFull a b).length = a.length + b.length - 1 := by
  simp [convFull]

/-- Helper: the fixture run of `plotStation` succeeds and produces `pEx`. -/
lemma plotStation_fixture :
    plotStation trA [gA] ccEx dAEx dTEx arrEx (1 / 2) stfEx = Except.ok pEx := by
  have hcc : dictGet ccEx trA.code = Except.ok (9 / 10) := rfl
  have hsel : selectStation [gA] trA.stats.station = Except.ok gA := rfl
  have hda : dictGet dAEx trA.code = Except.ok 2 := rfl
  have hdt : dictGet dTEx trA.code = Except.ok 3 := rfl
  have harr : dictGet arrEx trA.code = Except.ok 4 := rfl
  have hmax : maxAbs trA.data = 2 := by norm_num [maxAbs, trA, statsA]
  have hconv : convFull gA.data stfEx = [1, 1, 0] := by
    norm_num [convFull, gA, statsA, stfEx, List.range_succ]
  simp only [plotStation, hcc, hsel, hda, hdt, harr, hmax, hconv]
  simp only [pEx, lineStyle, trA, gA, statsA, stfEx, Trace.npts]
  norm_num

/-- Helper: the fixture data trace has positive peak amplitude. -/
lemma maxAbs_trA_pos : 0 < maxAbs trA.data := by
  norm_num [maxAbs, trA, statsA]

/-- C5 counterexample: with station `AAA.00` present in the data but absent
from `CC`, `plot_waveforms`'s per-station processing raises the builtin
`KeyError` carrying the code — not a `MissingStationDataError`. -/
theorem missing_cc_raises_keyError :
    plotStation trA [gA] [] dAEx dTEx arrEx (1 / 2) stfEx
        = Except.error (PyExn.keyError "AAA.00") ∧
      PyExn.keyError "AAA.00" ≠ PyExn.missingStationDataError "AAA.00" := by
  exact ⟨rfl, by decide⟩

/-- C5 (amended): a station whose code has no `CC` entry makes the
per-station processing fail with the builtin `KeyError` carrying that
station's code (there is no `MissingStationDataError` in the code). -/
theorem missing_cc_keyError_names_code (tr : Trace) (st_synth : List Trace)
    (CC dA dT arr_times : Dict) (CClim : ℚ) (stf : List ℚ)
    (h : CC.find? (fun p => p.1 == tr.code) = none) :
    plotStation tr st_synth CC dA dT arr_times CClim stf
      = Except.error (PyExn.keyError tr.code) := by
  simp only [plotStation, dictGet, h]

/-- C5 witness: `missing_cc_keyError_names_code` on the fixture station with
an empty `CC` mapping. -/
theorem missing_cc_keyError_names_code_witness :
    plotStation trA [gA] [] dAEx dTEx arrEx (1 / 2) stfEx
      = Except.error (PyExn.keyError trA.code) :=
  missing_cc_keyError_names_code trA [gA] [] dAEx dTEx arrEx (1 / 2) stfEx rfl

/-- C6: on a successful per-station run with `max(abs(data)) > 0`, all three
curves are divided by the single factor `normfac = max(abs(data))` of that
station's data trace, and the normalized data curve has max-abs exactly 1. -/
theorem curves_share_normfac (tr : Trace) (st_synth : List Trace)
    (CC dA dT arr_times : Dict) (CClim : ℚ) (stf : List ℚ) (p : StationPlot)
    (hp : plotStation tr st_synth CC dA dT arr_times CClim stf = Except.ok p)
    (hpos : 0 < maxAbs tr.data) :
    p.normfac = maxAbs tr.data ∧
      p.dataCurve = tr.data.map (fun x => x / p.normfac) ∧
      maxAbs p.dataCurve = 1 ∧
      ∃ g, selectStation st_synth tr.stats.station = Except.ok g ∧
        p.greensCurve = g.data.map (fun x => x / p.normfac) ∧
        p.synthCurve = ((convFull g.data stf).take tr.npts).map
          (fun x => x / p.normfac) := by
  obtain ⟨cc, g, da, dt, arrT, h1, h2, h3, h4, h5, hpe⟩ :=
    plotStation_ok_inv tr st_synth CC dA dT arr_times CClim stf p hp
  subst hpe
  refine ⟨rfl, rfl, ?_, g, h2, rfl, rfl⟩
  have h := maxAbs_map_div tr.data (maxAbs tr.data) (le_of_lt hpos)
  simpa [div_self (ne_of_gt hpos)] using h

/-- C6 witness: `curves_share_normfac` on the fixtures (`normfac = 2`). -/
theorem curves_share_normfac_witness :
    pEx.normfac = maxAbs trA.data ∧ maxAbs pEx.dataCurve = 1 := by
  have h := curves_share_normfac trA [gA] ccEx dAEx dTEx arrEx (1 / 2) stfEx
    pEx plotStation_fixture maxAbs_trA_pos
  exact ⟨h.1, h.2.2.1⟩

/-- C2: on a successful per-station run, when the data trace is no longer
than the full convolution (`npts ≤ len(greens) + len(stf) - 1`), the plotted
synthetic curve equals the full convolution of the Green's-function trace
with the STF truncated to the first `npts` samples and divided by the
normalization factor, and it has exactly `npts` samples. -/
theorem synth_is_truncated_convolution (tr : Trace) (st_synth : List Trace)
    (CC dA dT arr_times : Dict) (CClim : ℚ) (stf : List ℚ) (p : StationPlot)
    (g : Trace)
    (hp : plotStation tr st_synth CC dA dT arr_times CClim stf = Except.ok p)
    (hg : selectStation st_synth tr.stats.station = Except.ok g)
    (hlen : tr.npts ≤ g.data.length + stf.length - 1) :
    p.synthCurve = ((convFull g.data stf).take tr.npts).map
        (fun x => x / maxAbs tr.data) ∧
      p.synthCurve.length = tr.npts := by
  obtain ⟨cc, g', da, dt, arrT, h1, h2, h3, h4, h5, hpe⟩ :=
    plotStation_ok_inv tr st_synth CC dA dT arr_times CClim stf p hp
  have hgg : g' = g := by
    rw [hg] at h2
    exact (Except.ok.injEq _ _).mp h2.symm
  subst hgg
  subst hpe
  refine ⟨rfl, ?_⟩
  simp only [List.length_map, List.length_take, convFull_length]
  exact Nat.min_eq_left hlen

/-- C2 witness: `synth_is_truncated_convolution` on the fixtures
(`conv([1,0],[1,1],full) = [1,1,0]`, truncated to 3 samples, `/ 2`). -/
theorem synth_is_truncated_convolution_witness :
    pEx.synthCurve = ((convFull gA.data stfEx).take trA.npts).map
        (fun x => x / maxAbs trA.data) ∧
      pEx.synthCurve.length = trA.npts := by
  exact synth_is_truncated_convolution trA [gA] ccEx dAEx dTEx arrEx (1 / 2)
    stfEx pEx gA plotStation_fixture rfl (by decide)

end Stfinv

namespace Stfinv

/-- Helper: the grouping loop equals the two order-preserving filters. -/
lemma splitGroups_eq (pts : List (ℚ × ℚ × ℚ)) (lim : ℚ) :
    splitGroups pts lim =
      (pts.filter (fun p => decide (lim < p.2.2)),
       pts.filter (fun p => !decide (lim < p.2.2))) := by
  induction pts with
  | nil => rfl
  | cons p rest ih =>
    by_cases hc : lim < p.2.2 <;>
      simp [splitGroups, ih, List.filter_cons, hc]

/-- C8: `add_ortho` puts a station in group A iff `value > threshold` and in
group B otherwise; the two groups are exactly the complementary filters of
the input (no overlap, no omission, lengths add up), each keeps the input's
relative order (sublists of the input), and the two marker shapes are
distinct (`'o'` vs `'d'`). -/
theorem add_ortho_group_partition (pts : List (ℚ × ℚ × ℚ)) (lim : ℚ) :
    (splitGroups pts lim).1 = pts.filter (fun p => decide (lim < p.2.2)) ∧
      (splitGroups pts lim).2 = pts.filter (fun p => !decide (lim < p.2.2)) ∧
      (∀ p, p ∈ (splitGroups pts lim).1 ↔ p ∈ pts ∧ lim < p.2.2) ∧
      (∀ p, p ∈ (splitGroups pts lim).2 ↔ p ∈ pts ∧ ¬lim < p.2.2) ∧
      (splitGroups pts lim).1.length + (splitGroups pts lim).2.length
        = pts.length ∧
      List.Sublist (splitGroups pts lim).1 pts ∧
      List.Sublist (splitGroups pts lim).2 pts ∧
      orthoMarkers[0]? ≠ orthoMarkers[1]? := by
  rw [splitGroups_eq]
  refine ⟨rfl, rfl, ?_, ?_, ?_, ?_, ?_, ?_⟩
  · intro p
    simp [List.mem_filter]
  · intro p
    simp [List.mem_filter]
  · have hperm := List.filter_append_perm (fun p => decide (lim < p.2.2)) pts
    have := hperm.length_eq
    simpa [List.length_append] using this
  · exact List.filter_sublist _
  · exact List.filter_sublist _
  · simp [orthoMarkers]

/-- C8 witness: `add_ortho_group_partition` at the four-station scenario of
the spec (CC values 0.9, 0.3, 0.95, 0.1, threshold 0.5): the two
above-threshold stations form group A in input order. -/
theorem add_ortho_group_partition_witness :
    (splitGroups [((1 : ℚ), (1 : ℚ), (9 : ℚ) / 10), (2, 2, 3 / 10),
        (3, 3, 95 / 100), (4, 4, 1 / 10)] (1 / 2)).1
      = [((1 : ℚ), (1 : ℚ), (9 : ℚ) / 10), (3, 3, 95 / 100)] := by
  have h := (add_ortho_group_partition [((1 : ℚ), (1 : ℚ), (9 : ℚ) / 10),
    (2, 2, 3 / 10), (3, 3, 95 / 100), (4, 4, 1 / 10)] (1 / 2)).1
  rw [h]
  norm_num [List.filter_cons]

/-- C9: in `stationLayout`, the station at sorted index `i` is placed at
`row = i mod nrows`, `col = i div nrows`, with cell offsets `x = col` and
`y = row * 1.5`, and distinct sorted indices get distinct `(row, col)`
cells. -/
theorem station_cell_placement (st : List Trace) (i : ℕ) (c : CellPlacement)
    (hc : (stationLayout st)[i]? = some c) :
    c.row = i % nrows st.length ∧ c.col = i / nrows st.length ∧
      c.xoffset = (c.col : ℚ) ∧ c.yoffset = (c.row : ℚ) * (3 / 2) ∧
      ∀ j d, (stationLayout st)[j]? = some d → i ≠ j →
        (c.row, c.col) ≠ (d.row, d.col) := by
  have key : ∀ k e, (stationLayout st)[k]? = some e →
      e.row = k % nrows st.length ∧ e.col = k / nrows st.length ∧
        e.xoffset = (e.col : ℚ) ∧ e.yoffset = (e.row : ℚ) * (3 / 2) := by
    intro k e he
    rw [stationLayout, List.getElem?_map, List.getElem?_enum] at he
    cases hs : (sortByAzi st)[k]? with
    | none => rw [hs] at he; simp at he
    | some a =>
      rw [hs] at he
      simp only [Option.map_some'] at he
      cases he
      exact ⟨rfl, rfl, rfl, rfl⟩
  obtain ⟨h1, h2, h3, h4⟩ := key i c hc
  refine ⟨h1, h2, h3, h4, ?_⟩
  intro j d hd hij hcd
  obtain ⟨h1', h2', _, _⟩ := key j d hd
  rw [Prod.mk.injEq] at hcd
  obtain ⟨hr, hcl⟩ := hcd
  rw [h1, h1'] at hr
  rw [h2, h2'] at hcl
  have ha := Nat.div_add_mod i (nrows st.length)
  have hb := Nat.div_add_mod j (nrows st.length)
  rw [hr, hcl, hb] at ha
  exact hij ha.symm

/-- C9 witness: `station_cell_placement` on the two-station fixture stream:
after sorting by azimuth (`BBB.00` first), station `AAA.00` sits at sorted
index 1, i.e. row `1 mod 2 = 1`, column `1 div 2 = 0`. -/
theorem station_cell_placement_witness :
    cEx.row = 1 % nrows 2 ∧ cEx.col = 1 / nrows 2 := by
  have hn : nrows 2 = 2 := by
    simp only [nrows, sqrt_eq_of 2 1 (by norm_num) (by norm_num)]
  have hc : (stationLayout [trA, trB])[1]? = some cEx := by
    norm_num [stationLayout, sortByAzi, insertAzi, trA, trB, statsA,
      List.enum, List.enumFrom, irow, icol, xoffsetOf, yoffsetOf, cEx, hn]
  have h := station_cell_placement [trA, trB] 1 cEx hc
  exact ⟨h.1, h.2.1⟩

/-- Helper: a member of a list of naturals is bounded by the `foldr max` of
the list. -/
lemma mem_le_foldr_max (a : ℕ) (l : List ℕ) (ha : a ∈ l) :
    a ≤ l.foldr max 0 := by
  induction l with
  | nil => cases ha
  | cons x xs ih =>
    rcases List.mem_cons.mp ha with h | h
    · subst h
      exact le_max_left _ _
    · exact le_trans (ih h) (le_max_right _ _)

/-- C10: `plot_waveforms` never mutates the caller's stream: the per-render
copy gets a fresh object id and the sort is applied to the copy, so after
the call every stream object of the caller's heap — in particular the input
stream `stId` — holds exactly the traces it held before. -/
theorem plot_waveforms_preserves_caller_stream (h : Heap) (stId : StreamId) :
    hlookup (plotWaveformsStreams h stId).1 stId = hlookup h stId := by
  cases heq : hlookup h stId with
  | none => simp [plotWaveformsStreams, heq]
  | some st =>
    have hmem : ∃ p, p ∈ h ∧ p.1 = stId := by
      unfold hlookup at heq
      cases hf : h.find? (fun p => p.1 == stId) with
      | none => rw [hf] at heq; simp at heq
      | some p =>
        have h1 := List.find?_some hf
        have h2 := List.mem_of_find?_eq_some hf
        exact ⟨p, h2, by simpa using h1⟩
    obtain ⟨p, hp, hps⟩ := hmem
    have hle : stId ≤ (h.map Prod.fst).foldr max 0 := by
      apply mem_le_foldr_max
      rw [← hps]
      exact List.mem_map_of_mem Prod.fst hp
    have hlt : stId < freshId h := by
      unfold freshId
      exact Nat.lt_succ_of_le hle
    have hne : freshId h ≠ stId := ne_of_gt hlt
    simp only [plotWaveformsStreams, heq, hset]
    unfold hlookup
    rw [List.find?_cons_of_neg _ (by simpa using hne),
        List.find?_cons_of_neg _ (by simpa using hne)]
    exact heq

end Stfinv
